/-
Verification of the candidate-discovery and archive-reconciliation logic of
`fetch.py` (statsministerens-nytaarstaler).

The script is embedded shallowly:
* JSON values are an inductive `Json`; `iter_strings` mirrors the recursive
  string scan.
* The URL classifier (`normalize_url`, `is_stm_url`,
  `looks_like_new_year_speech_url`) is translated function by function.
  Library calls (`urllib.parse.urljoin`, `urlparse`, `re.search`, `str.lower`,
  `str.strip`) are modelled by explicit Lean functions whose scope is noted at
  their definitions.
* The paginated collector `collect_candidates_from_api` becomes a fuel-indexed
  loop over an API oracle `api : Nat → Nat → Except PostErr Json` (call index,
  page number); the call index lets the model distinguish separate requests to
  the same page, which the script can issue.
* `main` and the `__main__` wrapper become pure state-passing functions over an
  explicit disk (an association list year ↦ file content).
-/
import Mathlib

set_option autoImplicit false
set_option maxRecDepth 10000

/-! ## JSON values and the recursive string scan -/

/-- JSON-like values returned by the search API (`post_json` decodes the body
with `r.json()`).  Arrays and objects are cons-encoded (isomorphic to nested
lists, with `Json.arr`/`Json.obj` below converting from list form); objects
keep their key order, as Python dicts do. -/
inductive Json where
  | null
  | bool (b : Bool)
  | num (n : Int)
  | str (s : String)
  | arrNil
  | arrCons (head tail : Json)
  | objNil
  | objCons (key : String) (value tail : Json)
deriving DecidableEq

/-- A JSON array given as a list of elements. -/
def Json.arr (xs : List Json) : Json := xs.foldr .arrCons .arrNil

/-- A JSON object given as a list of key/value pairs in insertion order. -/
def Json.obj (kvs : List (String × Json)) : Json :=
  kvs.foldr (fun kv t => .objCons kv.1 kv.2 t) .objNil

/-- `iter_strings`: yield all string values found recursively in a JSON-like
structure (dict values in order, list elements in order, string leaves;
object keys are not yielded, matching `for v in obj.values()`). -/
def iter_strings : Json → List String
  | .str s => [s]
  | .arrCons h t => iter_strings h ++ iter_strings t
  | .objCons _ v t => iter_strings v ++ iter_strings t
  | _ => []

/-- On list-form arrays, `iter_strings` is the flattened depth-first scan. -/
theorem iter_strings_arr (xs : List Json) :
    iter_strings (Json.arr xs) = (xs.map iter_strings).flatten := by
  induction xs with
  | nil => rfl
  | cons h t ih => simp only [Json.arr, List.foldr] at ih ⊢; simp [iter_strings, ih]

/-- On list-form objects, `iter_strings` scans the values in order. -/
theorem iter_strings_obj (kvs : List (String × Json)) :
    iter_strings (Json.obj kvs) = (kvs.map (fun kv => iter_strings kv.2)).flatten := by
  induction kvs with
  | nil => rfl
  | cons h t ih => simp only [Json.obj, List.foldr] at ih ⊢; simp [iter_strings, ih]

example : iter_strings (Json.arr [.str "a", .obj [("k", .str "b")]]) = ["a", "b"] := by decide

/-! ## Python character and string primitives -/

/-- Characters stripped by Python `str.strip()` (restricted to the ASCII
whitespace characters; the URLs this script handles are ASCII). -/
def pySpace (c : Char) : Bool :=
  c = ' ' || c = '\t' || c = '\n' || c = '\r' || c = '\x0b' || c = '\x0c'

/-- Model of Python `str.strip()`. -/
def pyStrip (s : String) : String :=
  String.mk (((s.data.dropWhile pySpace).reverse.dropWhile pySpace).reverse)

/-- Model of Python `str.lower` on one character, restricted to ASCII letters
plus the Danish letters Å, Æ, Ø that occur in this script's domain (all other
characters are left unchanged). -/
def pyLowerChar (c : Char) : Char :=
  if c = 'A' then 'a' else if c = 'B' then 'b' else if c = 'C' then 'c'
  else if c = 'D' then 'd' else if c = 'E' then 'e' else if c = 'F' then 'f'
  else if c = 'G' then 'g' else if c = 'H' then 'h' else if c = 'I' then 'i'
  else if c = 'J' then 'j' else if c = 'K' then 'k' else if c = 'L' then 'l'
  else if c = 'M' then 'm' else if c = 'N' then 'n' else if c = 'O' then 'o'
  else if c = 'P' then 'p' else if c = 'Q' then 'q' else if c = 'R' then 'r'
  else if c = 'S' then 's' else if c = 'T' then 't' else if c = 'U' then 'u'
  else if c = 'V' then 'v' else if c = 'W' then 'w' else if c = 'X' then 'x'
  else if c = 'Y' then 'y' else if c = 'Z' then 'z'
  else if c = 'Å' then 'å' else if c = 'Æ' then 'æ' else if c = 'Ø' then 'ø'
  else c

/-- Model of Python `str.lower()`. -/
def pyLowerStr (s : String) : String :=
  String.mk (s.data.map pyLowerChar)

/-- Word characters for the regex `\b` boundary (Python `\w`), restricted to
ASCII alphanumerics, underscore, and the Danish letters. -/
def pyWordChar (c : Char) : Bool :=
  c.isAlphanum || c = '_' || c = 'å' || c = 'æ' || c = 'ø' || c = 'Å' || c = 'Æ' || c = 'Ø'

/-- Python `needle in hay` substring test on character lists. -/
def listContains (hay needle : List Char) : Bool :=
  match hay with
  | [] => needle.isEmpty
  | _ :: t => needle.isPrefixOf hay || listContains t needle

/-- Python `needle in hay` substring test on strings. -/
def containsSubstring (hay needle : String) : Bool :=
  listContains hay.data needle.data

/-- Python `s.startswith(p)` (character-list based so that it evaluates in the
kernel). -/
def strStartsWith (s p : String) : Bool :=
  p.data.isPrefixOf s.data

/-- Python `s.endswith(p)`. -/
def strEndsWith (s p : String) : Bool :=
  p.data.reverse.isPrefixOf s.data.reverse

/-- Python `s[n:]` for a nonnegative index. -/
def strDrop (s : String) (n : Nat) : String :=
  String.mk (s.data.drop n)

/-- Python `str.split(sep)` for a one-character separator. -/
def splitOnChar (sep : Char) : List Char → List (List Char)
  | [] => [[]]
  | c :: rest =>
    let r := splitOnChar sep rest
    if c = sep then [] :: r
    else
      match r with
      | [] => [[c]]
      | h :: t => (c :: h) :: t

/-- Python `sep.join(parts)` on character lists. -/
def joinSep (sep : List Char) : List (List Char) → List Char
  | [] => []
  | [x] => x
  | x :: y :: xs => x ++ sep ++ joinSep sep (y :: xs)

example : containsSubstring "abcdef" "cde" = true := by decide
example : containsSubstring "abcdef" "cdf" = false := by decide
example : pyLowerStr "NYTÅR-2022" = "nytår-2022" := by decide
example : pyStrip "  /x " = "/x" := by decide

/-! ## The year regex `YEAR_RE = \b(19|20)\d{2}\b` -/

/-- The `(19|20)` alternative: characters `i`, `i+1` spell `19` or `20`. -/
def yearPairOk (cs : List Char) (i : Nat) : Bool :=
  match cs[i]?, cs[i+1]? with
  | some a, some b => (a == '1' && b == '9') || (a == '2' && b == '0')
  | _, _ => false

/-- Character `i` exists and is a digit. -/
def digitAt (cs : List Char) (i : Nat) : Bool :=
  match cs[i]? with
  | some c => c.isDigit
  | none => false

/-- `\b` before the digit at index `i`: the string start, or a preceding
non-word character. -/
def boundaryBefore (cs : List Char) (i : Nat) : Bool :=
  match i with
  | 0 => true
  | j+1 => match cs[j]? with | some c => !pyWordChar c | none => false

/-- `\b` after a digit, at index `i`: the string end, or a non-word
character. -/
def boundaryAfter (cs : List Char) (i : Nat) : Bool :=
  match cs[i]? with
  | some e => !pyWordChar e
  | none => true

/-- Does a match of `\b(19|20)\d{2}\b` start at index `i` of `cs`? -/
def yearHitAt (cs : List Char) (i : Nat) : Bool :=
  yearPairOk cs i && digitAt cs (i+2) && digitAt cs (i+3) &&
    boundaryBefore cs i && boundaryAfter cs (i+4)

/-- The integer value of the 4-digit group starting at index `i`
(`int(m.group(0))`). -/
def yearValueAt (cs : List Char) (i : Nat) : Nat :=
  ((cs.drop i).take 4).foldl (fun n c => n * 10 + (c.toNat - '0'.toNat)) 0

/-- Model of `YEAR_RE.search(s)` followed by `int(m.group(0))`: the value of
the leftmost match of `\b(19|20)\d{2}\b`, or `none` when there is no match.
`re.search` returns the match at the smallest starting index. -/
def year_re_search (s : String) : Option Nat :=
  ((List.range s.data.length).find? (fun i => yearHitAt s.data i)).map
    (fun i => yearValueAt s.data i)

example : year_re_search "nytaarstale-2001-a" = some 2001 := by decide
example : year_re_search "x20199" = none := by decide
example : year_re_search "siden-1940/tale-2005" = some 1940 := by decide

/-! ## `urllib.parse` models -/

/-- `BASE_URL` from the script. -/
def BASE_URL : String := "https://stm.dk"

/-- Characters allowed in a URL scheme after the first (urllib `scheme_chars`). -/
def schemeChars (c : Char) : Bool :=
  c.isAlphanum || c = '+' || c = '-' || c = '.'

/-- The remainder of `u` after an initial valid `scheme:`, or `u` itself when
there is no scheme — following `urllib.parse.urlsplit`: a scheme is split off
only when a `:` occurs at index `i > 0`, the first character is an ASCII
letter, and all of `u[:i]` are scheme characters. -/
def splitSchemeRest (u : String) : String :=
  match u.data.findIdx? (fun c => c == ':') with
  | none => u
  | some i =>
    if 0 < i && (u.data.take i).all schemeChars &&
        (match u.data.head? with | some c => c.isAlpha | none => false) then
      String.mk (u.data.drop (i+1))
    else u

/-- `urlparse(url).netloc`: when the remainder after the scheme starts with
`//`, the characters up to the next `/`, `?` or `#`; otherwise empty.
(The model never raises; `is_stm_url` wraps the library call in
`try/except` anyway.) -/
def netlocOf (url : String) : String :=
  let rest := splitSchemeRest url
  if strStartsWith rest "//" then
    String.mk ((strDrop rest 2).data.takeWhile (fun c => !(c == '/' || c == '?' || c == '#')))
  else ""

example : netlocOf "https://stm.dk/statsministeren/" = "stm.dk" := by decide
example : netlocOf "https://sub.stm.dk" = "sub.stm.dk" := by decide
example : netlocOf "stm.dk/x" = "" := by decide

/-- Split a root-relative reference into its path (up to the first `?` or `#`)
and the rest (query/fragment suffix, kept verbatim). -/
def splitAtQueryFrag (t : String) : String × String :=
  let path := t.data.takeWhile (fun c => !(c == '?' || c == '#'))
  (String.mk path, String.mk (t.data.drop path.length))

/-- CPython `urljoin` segment resolution for an absolute path: split on `/`,
drop `.` segments, let `..` pop the previous segment, re-append an empty
segment when the path ends in `.` or `..`, and fall back to `/` when the
join is empty. -/
def pythonResolvePath (path : String) : String :=
  let segs := splitOnChar '/' path.data
  let resolved := segs.foldl
    (fun acc seg =>
      if seg = "..".data then acc.dropLast
      else if seg = ".".data then acc
      else acc ++ [seg]) ([] : List (List Char))
  let resolved :=
    if segs.getLast? = some "..".data ∨ segs.getLast? = some ".".data then resolved ++ [[]]
    else resolved
  let j := joinSep "/".data resolved
  if j = [] then "/" else String.mk j

/-- Resolve the path portion of a root-relative reference and re-attach the
query/fragment suffix. -/
def resolveFull (p : String) : String :=
  let q := splitAtQueryFrag p
  pythonResolvePath q.1 ++ q.2

/-- Model of `urljoin(BASE_URL, t)` for references `t` beginning with `/`
(the only shape `normalize_url` feeds it).  `//host...` is a network-path
reference: CPython keeps its authority and path verbatim and adopts the base
scheme; when the authority is empty it falls back to the base authority.  A
single-slash reference keeps the base origin and resolves dot segments. -/
def urljoinBase (t : String) : String :=
  if strStartsWith t "//" then
    let rest := strDrop t 2
    let netloc := String.mk (rest.data.takeWhile (fun c => !(c == '/' || c == '?' || c == '#')))
    if netloc = "" then
      if strStartsWith rest "/" then BASE_URL ++ resolveFull rest
      else if rest = "" then BASE_URL
      else BASE_URL ++ rest
    else "https:" ++ t
  else BASE_URL ++ resolveFull t

example : urljoinBase "/statsministeren/taler/" = "https://stm.dk/statsministeren/taler/" := by decide
example : urljoinBase "//example.com/x" = "https://example.com/x" := by decide
example : urljoinBase "/a/../b?x=1" = "https://stm.dk/b?x=1" := by decide

/-! ## The URL classifier -/

/-- `normalize_url`: strip whitespace; empty → `none`; `http(s)://…` →
unchanged; leading `/` → joined against `BASE_URL`; anything else → `none`. -/
def normalize_url (s : String) : Option String :=
  let t := pyStrip s
  if t = "" then none
  else if strStartsWith t "http://" || strStartsWith t "https://" then some t
  else if strStartsWith t "/" then some (urljoinBase t)
  else none

/-- `is_stm_url`: the lowercased netloc equals `stm.dk` or ends with
`.stm.dk`. -/
def is_stm_url (url : String) : Bool :=
  let host := pyLowerStr (netlocOf url)
  host == "stm.dk" || strEndsWith host ".stm.dk"

/-- `SPEECH_PATH_HINTS` from the script. -/
def SPEECH_PATH_HINTS : List String :=
  ["/statsministeren/taler/", "/statsministeren/nytaarstaler-siden-1940/"]

/-- `NYTAAR_HINTS` from the script. -/
def NYTAAR_HINTS : List String :=
  ["nytaarstale", "nytårstale", "nytår"]

/-- `looks_like_new_year_speech_url`: on stm.dk, contains a speech path hint,
contains a new-year keyword hint, and contains a year token — all tested on
the lowercased URL (the domain test parses the original URL). -/
def looks_like_new_year_speech_url (url : String) : Bool :=
  let u := pyLowerStr url
  if !is_stm_url url then false
  else if !(SPEECH_PATH_HINTS.any (fun h => containsSubstring u h)) then false
  else if !(NYTAAR_HINTS.any (fun h => containsSubstring u h)) then false
  else if (year_re_search u).isNone then false
  else true

example :
    looks_like_new_year_speech_url "https://stm.dk/statsministeren/taler/nytaarstale-2022/" = true := by decide
example :
    looks_like_new_year_speech_url "https://stm.dk/statsministeren/taler/tale-2022/" = false := by decide
example :
    looks_like_new_year_speech_url "https://evil.dk/statsministeren/taler/nytaarstale-2022/" = false := by decide

/-! ## The candidate collector -/

/-- `MAX_PAGES` from the script. -/
def MAX_PAGES : Nat := 20

/-- Failure modes of `post_json`: a transport / HTTP-status error
(`requests` exception or `raise_for_status`), or a non-JSON body (the
`RuntimeError` raised when `r.json()` fails). -/
inductive PostErr where
  | transport
  | nonJson
deriving DecidableEq

/-- The body of the scan over one decoded response: normalize each string, keep
it when the classifier accepts it and a year token is found, and pair the year
with the URL (`for s in iter_strings(data): ...`). -/
def classifyString (s : String) : Option (Nat × String) :=
  match normalize_url s with
  | none => none
  | some url =>
    if looks_like_new_year_speech_url url then
      match year_re_search url with
      | none => none
      | some y => some (y, url)
    else none

/-- All `(year, url)` matches contributed by one page response, in scan order;
its length is the script's `found_on_page` counter. -/
def pageMatches (data : Json) : List (Nat × String) :=
  (iter_strings data).filterMap classifyString

/-- `candidates.setdefault(year, url)`: record the pair only when the year is
not yet present. -/
def setdefaultStep (c : List (Nat × String)) (m : Nat × String) : List (Nat × String) :=
  if (c.lookup m.1).isSome then c else c ++ [m]

/-- Fold a page's matches into the candidate mapping with `setdefault`. -/
def setdefaultFold (c : List (Nat × String)) (ms : List (Nat × String)) : List (Nat × String) :=
  ms.foldl setdefaultStep c

/-- The paging loop of `collect_candidates_from_api`.  `api` is the oracle for
`post_json` (first argument: how many requests have been issued so far, so
that distinct requests may receive distinct responses; second: the page
number).  `fuel` is the number of remaining iterations of
`for page in range(1, MAX_PAGES + 1)`.  Returns the candidate mapping, the
list of requested pages, and the number of requests issued. -/
def collectGo (api : Nat → Nat → Except PostErr Json) :
    Nat → Nat → Nat → Nat → List (Nat × String) → List Nat →
    Except PostErr (List (Nat × String) × List Nat × Nat)
  | ci, _page, 0, _er, cands, reqs => .ok (cands, reqs, ci)
  | ci, page, fuel+1, er, cands, reqs =>
    match api ci page with
    | .error e => .error e
    | .ok data =>
      let ms := pageMatches data
      let cands1 := setdefaultFold cands ms
      let er1 := if ms.length = 0 then er + 1 else 0
      if 2 ≤ er1 ∧ 3 ≤ page then .ok (cands1, reqs ++ [page], ci + 1)
      else collectGo api (ci+1) (page+1) fuel er1 cands1 (reqs ++ [page])

/-- `collect_candidates_from_api`, parameterised by the API oracle and the
page budget (the script applies it at `MAX_PAGES`). -/
def collect_candidates_from_api (api : Nat → Nat → Except PostErr Json)
    (maxPages : Nat) : Except PostErr (List (Nat × String) × List Nat × Nat) :=
  collectGo api 0 1 maxPages 0 [] []

/-- An API whose responses depend only on the page number — the "fixed
sequence of page responses" situation of the specification. -/
def statelessApi (pages : Nat → Json) : Nat → Nat → Except PostErr Json :=
  fun _ page => .ok (pages page)

/-- The pages the collector requests, given per-page responses. -/
def collectReqs (pages : Nat → Json) (maxPages : Nat) : List Nat :=
  match collect_candidates_from_api (statelessApi pages) maxPages with
  | .ok (_, reqs, _) => reqs
  | .error _ => []

/-- The candidate mapping the collector builds, given per-page responses. -/
def collectCands (pages : Nat → Json) (maxPages : Nat) : List (Nat × String) :=
  match collect_candidates_from_api (statelessApi pages) maxPages with
  | .ok (cands, _, _) => cands
  | .error _ => []

example :
    collectReqs (fun _ => Json.obj []) MAX_PAGES = [1, 2, 3] := by decide

example :
    collectCands (fun p => if p = 1 then Json.str "https://stm.dk/statsministeren/taler/nytaarstale-2022/" else Json.null) MAX_PAGES
      = [(2022, "https://stm.dk/statsministeren/taler/nytaarstale-2022/")] := by decide

/-! ## The page extractor -/

/-- The BeautifulSoup view of one fetched HTML page, as
`extract_title_and_text` consumes it: `h1` is `get_text(" ", strip=True)` of
the first `h1` element when one exists, and `mainParagraphs` lists
`get_text(" ", strip=True)` of every `p` element inside the `main` landmark
(or the whole document when there is no `main`), in document order. -/
structure ParsedPage where
  h1 : Option String
  mainParagraphs : List String
deriving DecidableEq

/-- The title: the first heading's text, or the fixed fallback. -/
def pageTitle (pg : ParsedPage) : String :=
  match pg.h1 with
  | some t => t
  | none => "Statsministerens nytårstale"

/-- The joined body: non-empty paragraph texts separated by blank lines. -/
def joinedText (pg : ParsedPage) : String :=
  String.intercalate "\n\n" (pg.mainParagraphs.filter (fun p => p ≠ ""))

/-- The extraction error message raised by the length sanity check. -/
def extractErrMsg : String :=
  "Udtræk gav meget lidt tekst (markup kan have ændret sig)."

/-- `extract_title_and_text`: fail when the joined text is shorter than 400
characters, otherwise return the title and the joined text. -/
def extract_title_and_text (pg : ParsedPage) : Except String (String × String) :=
  if (joinedText pg).length < 400 then .error extractErrMsg
  else .ok (pageTitle pg, joinedText pg)

/-! ## Writing one archive file -/

/-- The markdown content written by `write_markdown` (`fetched` is the
formatted fetch date `datetime.now().strftime("%Y-%m-%d")`). -/
def write_markdown_content (title source_url fetched text : String) : String :=
  "# " ++ title ++ "\n\nKilde: " ++ source_url ++ "\nHentet: " ++ fetched ++
    "\n\n---\n\n" ++ text ++ "\n"

/-- Overwrite-or-append a year's file on the modelled disk (an association
list year ↦ file content standing for `taler/<year>.md`). -/
def diskWrite (d : List (Nat × String)) (y : Nat) (content : String) :
    List (Nat × String) :=
  if (d.lookup y).isSome then
    d.map (fun p => if p.1 = y then (y, content) else p)
  else d ++ [(y, content)]

/-! ## `main` and the `__main__` wrapper -/

/-- The ambient effects `main` interacts with:
* `api`: the `post_json` oracle (request index, page number);
* `get_html`: per URL, either a transport failure or the parsed page
  (`get_html` composed with BeautifulSoup parsing, which never fails);
* `writeOk`: whether writing the year's file succeeds (an `OSError` inside
  `write_markdown` otherwise);
* `dateStr`: the formatted current date used in the file content. -/
structure Env where
  api : Nat → Nat → Except PostErr Json
  get_html : String → Except Unit ParsedPage
  writeOk : Nat → Bool
  dateStr : String

/-- Errors that escape `main` and are turned into exit status 1 by the
`__main__` wrapper. -/
inductive MainErr where
  | apiFailure
  | zeroCandidates
deriving DecidableEq

/-- `main` either returns an exit code or raises. -/
inductive Outcome where
  | ret (n : Nat)
  | raised (e : MainErr)
deriving DecidableEq

/-- Everything observable about one run of `main`. -/
structure MainOut where
  outcome : Outcome
  disk : List (Nat × String)
  debugFile : Option Json
  fetched : List Nat
  wrote : Nat
deriving DecidableEq

/-- Insert into an ascending list (for modelling `sorted`). -/
def insertAsc (x : Nat) : List Nat → List Nat
  | [] => [x]
  | y :: ys => if x ≤ y then x :: y :: ys else y :: insertAsc x ys

/-- Python `sorted(xs)`. -/
def sortAsc (xs : List Nat) : List Nat := xs.foldr insertAsc []

/-- Insert into a descending list. -/
def insertDesc (x : Nat) : List Nat → List Nat
  | [] => [x]
  | y :: ys => if y ≤ x then x :: y :: ys else y :: insertDesc x ys

/-- Python `sorted(xs, reverse=True)`. -/
def sortDesc (xs : List Nat) : List Nat := xs.foldr insertDesc []

/-- The missing years: candidate years (sorted descending, as the script
reports them) whose file does not exist on disk. -/
def missingYears (cands : List (Nat × String)) (disk0 : List (Nat × String)) :
    List Nat :=
  (sortDesc (cands.map Prod.fst)).filter (fun y => (disk0.lookup y).isNone)

/-- The in-flight state of the fetch-and-write loop. -/
structure LoopSt where
  disk : List (Nat × String)
  wrote : Nat
  fetched : List Nat
deriving DecidableEq

/-- One iteration of the per-year loop: look up the URL, fetch, extract,
write; any failure leaves the state unchanged apart from recording the fetch
attempt (`except Exception: ... continue`). -/
def processYear (env : Env) (cands : List (Nat × String)) (st : LoopSt)
    (year : Nat) : LoopSt :=
  let url := (cands.lookup year).getD ""
  let st1 : LoopSt := ⟨st.disk, st.wrote, st.fetched ++ [year]⟩
  match env.get_html url with
  | .error _ => st1
  | .ok pg =>
    match extract_title_and_text pg with
    | .error _ => st1
    | .ok te =>
      if env.writeOk year then
        ⟨diskWrite st1.disk year (write_markdown_content te.1 url env.dateStr te.2),
          st1.wrote + 1, st1.fetched⟩
      else st1

/-- The whole fetch-and-write loop over the missing years. -/
def fetchLoop (env : Env) (cands : List (Nat × String)) (years : List Nat)
    (st : LoopSt) : LoopSt :=
  years.foldl (processYear env cands) st

/-- `main`, as a function of the effect oracles and the initial disk. -/
def mainRun (env : Env) (disk0 : List (Nat × String)) : MainOut :=
  match collect_candidates_from_api env.api MAX_PAGES with
  | .error _ => ⟨.raised .apiFailure, disk0, none, [], 0⟩
  | .ok (cands, _reqs, nextIdx) =>
    if cands = [] then
      match env.api nextIdx 1 with
      | .error _ => ⟨.raised .apiFailure, disk0, none, [], 0⟩
      | .ok dbg => ⟨.raised .zeroCandidates, disk0, some dbg, [], 0⟩
    else
      let missing := missingYears cands disk0
      if missing = [] then ⟨.ret 0, disk0, none, [], 0⟩
      else
        let st := fetchLoop env cands (sortAsc missing) ⟨disk0, 0, []⟩
        ⟨.ret (if st.wrote = 0 then 1 else 0), st.disk, none, st.fetched, st.wrote⟩

/-- The process exit status produced by the `__main__` wrapper:
`SystemExit(main())` on normal return, exit status 1 when `main` raises. -/
def script_exit_code (out : MainOut) : Nat :=
  match out.outcome with
  | .ret n => n
  | .raised _ => 1

/-! ## Generic helpers -/

/-- First-some choice on options (used to state lookup lemmas). -/
def optOr {α : Type} : Option α → Option α → Option α
  | some a, _ => some a
  | none, b => b

/-- `lookup` over a single appended entry. -/
theorem lookup_append_single (c : List (Nat × String)) (m : Nat × String) (y : Nat) :
    (c ++ [m]).lookup y = optOr (c.lookup y) (if y = m.1 then some m.2 else none) := by
  induction c with
  | nil =>
    by_cases h : y = m.1
    · simp [List.lookup, h, optOr]
    · have hb : (y == m.1) = false := by simp [h]
      simp [List.lookup, hb, optOr, h]
  | cons p t ih =>
    by_cases h : y = p.1
    · simp [List.lookup, h, optOr]
    · have hb : (y == p.1) = false := by simp [h]
      simp [List.lookup, hb, ih]

/-- `lookup` misses exactly the keys that are absent. -/
theorem lookup_eq_none_iff (c : List (Nat × String)) (y : Nat) :
    c.lookup y = none ↔ y ∉ c.map Prod.fst := by
  induction c with
  | nil => simp [List.lookup]
  | cons p t ih =>
    by_cases h : y = p.1
    · subst h; simp [List.lookup]
    · have hb : (y == p.1) = false := by simp [h]
      simp [List.lookup, hb, ih, h]

/-! ## Extraction (claim C5) -/

/-- A 400-character paragraph used as a concrete fixture. -/
def longPara : String := String.mk (List.replicate 400 'a')

/-- C5 — counterexample. The claim asserts that whenever the joined paragraph
text reaches 400 characters, extraction returns a *non-empty* title; but a
page whose first `h1` element has empty text (e.g. `<h1></h1>`) yields the
empty title while extraction succeeds. -/
theorem C5_counterexample :
    extract_title_and_text ⟨some "", [longPara]⟩ = Except.ok ("", longPara) ∧
    400 ≤ (joinedText ⟨some "", [longPara]⟩).length := by
  constructor
  · rfl
  · decide

/-- C5 (amended): extraction fails with the extraction error exactly when the
joined non-empty-paragraph text is shorter than 400 characters; when it is at
least 400 characters, extraction succeeds and returns the joined text (which
is non-empty) as body, and a title that can be empty only when the page's
first heading exists and has empty text. -/
theorem C5_extraction_threshold (pg : ParsedPage) :
    (extract_title_and_text pg = .error extractErrMsg ↔ (joinedText pg).length < 400) ∧
    (400 ≤ (joinedText pg).length →
      extract_title_and_text pg = .ok (pageTitle pg, joinedText pg) ∧
      joinedText pg ≠ "" ∧
      (pageTitle pg = "" → pg.h1 = some "")) := by
  constructor
  · unfold extract_title_and_text
    split
    · next h => simp [h]
    · next h => simp [h]
  · intro h
    refine ⟨?_, ?_, ?_⟩
    · unfold extract_title_and_text
      rw [if_neg (by omega)]
    · intro he
      rw [he] at h
      exact absurd h (by decide)
    · intro ht
      cases hh : pg.h1 with
      | none =>
        simp [pageTitle, hh] at ht
      | some t =>
        simp [pageTitle, hh] at ht
        rw [ht]

/-- C5 — witness: a page with no heading and a 400-character paragraph
extracts successfully with the default title. -/
theorem C5_witness :
    extract_title_and_text ⟨none, [longPara]⟩ =
      Except.ok ("Statsministerens nytårstale", longPara) := by
  have h := (C5_extraction_threshold ⟨none, [longPara]⟩).2 (by decide)
  exact h.1.trans (by rfl)

/-! ## URL normalization (claim C6) -/

/-- A string starting with `/` cannot start with `http://` or `https://`. -/
theorem not_http_of_slash {t : String} (h : strStartsWith t "/" = true) :
    strStartsWith t "http://" = false ∧ strStartsWith t "https://" = false := by
  unfold strStartsWith at *
  rw [List.isPrefixOf_iff_prefix] at h
  obtain ⟨u, hu⟩ := h
  have hd : "/".data = ['/'] := rfl
  rw [hd] at hu
  have ht : t.data = '/' :: u := hu.symm
  constructor
  · rw [ht]
    have hh : "http://".data = 'h' :: "ttp://".data := rfl
    rw [hh]
    simp [List.isPrefixOf]
  · rw [ht]
    have hh : "https://".data = 'h' :: "ttps://".data := rfl
    rw [hh]
    simp [List.isPrefixOf]

/-- A string starting with `//` starts with `/`. -/
theorem slash_of_double_slash {t : String} (h : strStartsWith t "//" = true) :
    strStartsWith t "/" = true := by
  unfold strStartsWith at *
  rw [List.isPrefixOf_iff_prefix] at h ⊢
  obtain ⟨u, hu⟩ := h
  exact ⟨'/' :: u, by simpa using hu⟩

/-- C6 — counterexample.  The claim says protocol-agnostic (scheme-relative)
inputs return absent and that any URL with a scheme is returned unchanged;
but `normalize_url` resolves `//example.com/x` (it begins with the path
separator) and rejects non-http(s) absolute URLs such as `ftp://…`. -/
theorem C6_counterexample :
    normalize_url "//example.com/x" = some "https://example.com/x" ∧
    normalize_url "ftp://example.com/" = none := by
  constructor
  · rfl
  · rfl

/-- C6 (amended): after trimming, `normalize_url` returns the string unchanged
when it begins with `http://` or `https://` (only those schemes); resolves a
root-relative `/…` input against the base origin; resolves a scheme-relative
`//host…` input by adopting the base scheme; and returns `none` for empty
input and for nonempty input that neither carries an http(s) scheme nor
begins with a path separator. -/
theorem C6_normalize_url_cases (s : String) :
    (pyStrip s = "" → normalize_url s = none) ∧
    ((strStartsWith (pyStrip s) "http://" = true ∨
        strStartsWith (pyStrip s) "https://" = true) →
      normalize_url s = some (pyStrip s)) ∧
    (strStartsWith (pyStrip s) "/" = true → strStartsWith (pyStrip s) "//" = false →
      normalize_url s = some (BASE_URL ++ resolveFull (pyStrip s))) ∧
    (strStartsWith (pyStrip s) "//" = true →
      normalize_url s = some (urljoinBase (pyStrip s)) ∧
      (String.mk ((strDrop (pyStrip s) 2).data.takeWhile
          (fun c => !(c == '/' || c == '?' || c == '#'))) ≠ "" →
        normalize_url s = some ("https:" ++ pyStrip s))) ∧
    (pyStrip s ≠ "" → strStartsWith (pyStrip s) "http://" = false →
      strStartsWith (pyStrip s) "https://" = false →
      strStartsWith (pyStrip s) "/" = false → normalize_url s = none) := by
  refine ⟨?_, ?_, ?_, ?_, ?_⟩
  · intro h
    simp [normalize_url, h]
  · intro h
    have hne : pyStrip s ≠ "" := by
      intro he
      rw [he] at h
      rcases h with h | h <;> exact absurd h (by decide)
    rcases h with h | h <;> simp [normalize_url, hne, h]
  · intro h1 h2
    have hne : pyStrip s ≠ "" := by
      intro he
      rw [he] at h1
      exact absurd h1 (by decide)
    obtain ⟨hh1, hh2⟩ := not_http_of_slash h1
    simp [normalize_url, hne, hh1, hh2, h1, urljoinBase, h2]
  · intro h
    have h1 := slash_of_double_slash h
    have hne : pyStrip s ≠ "" := by
      intro he
      rw [he] at h1
      exact absurd h1 (by decide)
    obtain ⟨hh1, hh2⟩ := not_http_of_slash h1
    have hmain : normalize_url s = some (urljoinBase (pyStrip s)) := by
      simp [normalize_url, hne, hh1, hh2, h1]
    refine ⟨hmain, ?_⟩
    intro hnet
    have hjoin : urljoinBase (pyStrip s) = "https:" ++ pyStrip s := by
      unfold urljoinBase
      dsimp only
      rw [if_pos h, if_neg hnet]
    rw [hmain, hjoin]
  · intro h0 h1 h2 h3
    simp [normalize_url, h0, h1, h2, h3]

/-- C6 — witness: a padded root-relative path resolves against the base
origin, and a scheme-relative URL adopts the base scheme. -/
theorem C6_witness :
    normalize_url "  /statsministeren/taler " = some "https://stm.dk/statsministeren/taler" ∧
    normalize_url "//cdn.stm.dk/x" = some "https://cdn.stm.dk/x" := by
  constructor
  · have h := (C6_normalize_url_cases "  /statsministeren/taler ").2.2.1 (by decide) (by decide)
    rw [h]
    rfl
  · have h := ((C6_normalize_url_cases "//cdn.stm.dk/x").2.2.2.1 (by decide)).2 (by decide)
    rw [h]
    rfl

/-! ## Lowercasing preserves the character classes the regex tests -/

set_option maxHeartbeats 1600000 in
/-- `pyLowerChar` either fixes a character, or maps a letter to a letter:
in both cases word-char status is preserved and no digit is produced. -/
theorem pyLowerChar_cases (c : Char) :
    pyLowerChar c = c ∨
    (pyWordChar c = true ∧ pyWordChar (pyLowerChar c) = true ∧
     (pyLowerChar c).isDigit = false ∧ c.isDigit = false) := by
  by_cases h1 : c = 'A'
  · subst h1; decide
  by_cases h2 : c = 'B'
  · subst h2; decide
  by_cases h3 : c = 'C'
  · subst h3; decide
  by_cases h4 : c = 'D'
  · subst h4; decide
  by_cases h5 : c = 'E'
  · subst h5; decide
  by_cases h6 : c = 'F'
  · subst h6; decide
  by_cases h7 : c = 'G'
  · subst h7; decide
  by_cases h8 : c = 'H'
  · subst h8; decide
  by_cases h9 : c = 'I'
  · subst h9; decide
  by_cases h10 : c = 'J'
  · subst h10; decide
  by_cases h11 : c = 'K'
  · subst h11; decide
  by_cases h12 : c = 'L'
  · subst h12; decide
  by_cases h13 : c = 'M'
  · subst h13; decide
  by_cases h14 : c = 'N'
  · subst h14; decide
  by_cases h15 : c = 'O'
  · subst h15; decide
  by_cases h16 : c = 'P'
  · subst h16; decide
  by_cases h17 : c = 'Q'
  · subst h17; decide
  by_cases h18 : c = 'R'
  · subst h18; decide
  by_cases h19 : c = 'S'
  · subst h19; decide
  by_cases h20 : c = 'T'
  · subst h20; decide
  by_cases h21 : c = 'U'
  · subst h21; decide
  by_cases h22 : c = 'V'
  · subst h22; decide
  by_cases h23 : c = 'W'
  · subst h23; decide
  by_cases h24 : c = 'X'
  · subst h24; decide
  by_cases h25 : c = 'Y'
  · subst h25; decide
  by_cases h26 : c = 'Z'
  · subst h26; decide
  by_cases h27 : c = 'Å'
  · subst h27; decide
  by_cases h28 : c = 'Æ'
  · subst h28; decide
  by_cases h29 : c = 'Ø'
  · subst h29; decide
  left
  simp only [pyLowerChar, h1, h2, h3, h4, h5, h6, h7, h8, h9, h10, h11, h12, h13, h14, h15, h16, h17, h18, h19, h20, h21, h22, h23, h24, h25, h26, h27, h28, h29, if_false, ite_false]

/-- Lowercasing preserves word-char status. -/
theorem pyWordChar_pyLowerChar (c : Char) :
    pyWordChar (pyLowerChar c) = pyWordChar c := by
  rcases pyLowerChar_cases c with h | ⟨h1, h2, _, _⟩
  · rw [h]
  · rw [h1, h2]

/-- Lowercasing preserves digit status. -/
theorem isDigit_pyLowerChar (c : Char) :
    (pyLowerChar c).isDigit = c.isDigit := by
  rcases pyLowerChar_cases c with h | ⟨_, _, h3, h4⟩
  · rw [h]
  · rw [h3, h4]

/-- Comparing with a digit is unaffected by lowercasing. -/
theorem beq_digit_pyLowerChar {d : Char} (hd : d.isDigit = true) (a : Char) :
    (pyLowerChar a == d) = (a == d) := by
  by_cases h : a = d
  · subst h
    rcases pyLowerChar_cases a with hc | ⟨_, _, _, h4⟩
    · rw [hc]
    · simp [hd] at h4
  · have h1 : (a == d) = false := by simp [h]
    rw [h1]
    by_cases h2 : pyLowerChar a = d
    · exfalso
      rcases pyLowerChar_cases a with hc | ⟨_, _, h3, _⟩
      · rw [hc] at h2; exact h h2
      · rw [h2, hd] at h3; exact absurd h3 (by decide)
    · simp [h2]

theorem yearPairOk_map (cs : List Char) (i : Nat) :
    yearPairOk (cs.map pyLowerChar) i = yearPairOk cs i := by
  unfold yearPairOk
  simp only [List.getElem?_map]
  rcases cs[i]? with _ | a <;> rcases cs[i+1]? with _ | b <;> simp
  rw [beq_digit_pyLowerChar (by decide) a, beq_digit_pyLowerChar (by decide) b,
    beq_digit_pyLowerChar (by decide) a, beq_digit_pyLowerChar (by decide) b]

theorem digitAt_map (cs : List Char) (i : Nat) :
    digitAt (cs.map pyLowerChar) i = digitAt cs i := by
  unfold digitAt
  simp only [List.getElem?_map]
  rcases cs[i]? with _ | c <;> simp [isDigit_pyLowerChar]

theorem boundaryBefore_map (cs : List Char) (i : Nat) :
    boundaryBefore (cs.map pyLowerChar) i = boundaryBefore cs i := by
  unfold boundaryBefore
  cases i with
  | zero => rfl
  | succ j =>
    simp only [List.getElem?_map]
    rcases cs[j]? with _ | c <;> simp [pyWordChar_pyLowerChar]

theorem boundaryAfter_map (cs : List Char) (i : Nat) :
    boundaryAfter (cs.map pyLowerChar) i = boundaryAfter cs i := by
  unfold boundaryAfter
  simp only [List.getElem?_map]
  rcases cs[i]? with _ | c <;> simp [pyWordChar_pyLowerChar]

/-- A year-token match at `i` survives lowercasing in both directions. -/
theorem yearHitAt_map_lower (cs : List Char) (i : Nat) :
    yearHitAt (cs.map pyLowerChar) i = yearHitAt cs i := by
  unfold yearHitAt
  rw [yearPairOk_map, digitAt_map, digitAt_map, boundaryBefore_map, boundaryAfter_map]

/-! ## Substring semantics and the classifier (claim C4) -/

/-- Python's `in` test means: the needle occurs as a contiguous factor. -/
theorem listContains_iff (hay needle : List Char) :
    listContains hay needle = true ↔ ∃ pre post, hay = pre ++ needle ++ post := by
  induction hay with
  | nil =>
    constructor
    · intro h
      cases needle with
      | nil => exact ⟨[], [], rfl⟩
      | cons n ns => simp [listContains, List.isEmpty] at h
    · rintro ⟨pre, post, h⟩
      have h' := h.symm
      rw [List.append_eq_nil, List.append_eq_nil] at h'
      simp [listContains, h'.1.2, List.isEmpty]
  | cons c t ih =>
    constructor
    · intro h
      unfold listContains at h
      rw [Bool.or_eq_true] at h
      rcases h with h | h
      · rw [List.isPrefixOf_iff_prefix] at h
        obtain ⟨u, hu⟩ := h
        exact ⟨[], u, by simp [← hu]⟩
      · obtain ⟨pre, post, hp⟩ := ih.mp h
        exact ⟨c :: pre, post, by simp [hp]⟩
    · rintro ⟨pre, post, hp⟩
      unfold listContains
      rw [Bool.or_eq_true]
      cases pre with
      | nil =>
        left
        rw [List.isPrefixOf_iff_prefix]
        exact ⟨post, by simpa using hp.symm⟩
      | cons p ps =>
        right
        apply ih.mpr
        rw [List.cons_append, List.cons_append] at hp
        injection hp with h1 h2
        exact ⟨ps, post, by simpa using h2⟩

/-- A year-token match needs its first digit inside the string. -/
theorem yearHitAt_lt {cs : List Char} {i : Nat} (h : yearHitAt cs i = true) :
    i < cs.length := by
  have hp : yearPairOk cs i = true := by
    unfold yearHitAt at h
    simp only [Bool.and_eq_true] at h
    exact h.1.1.1.1
  rcases hg : cs[i]? with _ | a
  · rcases hg2 : cs[i+1]? with _ | b <;> simp [yearPairOk, hg, hg2] at hp
  · exact (List.getElem?_eq_some.mp hg).1

/-- `YEAR_RE.search` succeeds exactly when some index carries a match. -/
theorem year_re_search_isSome_iff (s : String) :
    (year_re_search s).isSome = true ↔ ∃ i, yearHitAt s.data i = true := by
  constructor
  · intro h
    cases hf : (List.range s.data.length).find? (fun i => yearHitAt s.data i) with
    | none =>
      exfalso
      unfold year_re_search at h
      rw [hf] at h
      simp at h
    | some i => exact ⟨i, List.find?_some hf⟩
  · rintro ⟨i, hi⟩
    have hilt : i < s.data.length := yearHitAt_lt hi
    cases hf : (List.range s.data.length).find? (fun i => yearHitAt s.data i) with
    | none =>
      exfalso
      exact List.find?_eq_none.mp hf i (List.mem_range.mpr hilt) hi
    | some j =>
      unfold year_re_search
      rw [hf]
      rfl

/-- The classifier as one boolean conjunction (mirrors the early-return
chain). -/
theorem looks_like_eq (url : String) :
    looks_like_new_year_speech_url url =
      (is_stm_url url &&
       SPEECH_PATH_HINTS.any (fun h => containsSubstring (pyLowerStr url) h) &&
       NYTAAR_HINTS.any (fun h => containsSubstring (pyLowerStr url) h) &&
       (year_re_search (pyLowerStr url)).isSome) := by
  unfold looks_like_new_year_speech_url
  cases h1 : is_stm_url url
  · simp [h1]
  · cases h2 : SPEECH_PATH_HINTS.any (fun h => containsSubstring (pyLowerStr url) h)
    · simp [h1, h2]
    · cases h3 : NYTAAR_HINTS.any (fun h => containsSubstring (pyLowerStr url) h)
      · simp [h1, h2, h3]
      · cases h4 : year_re_search (pyLowerStr url) <;> simp [h1, h2, h3, h4]

/-- C4: `looks_like_new_year_speech_url` accepts exactly the URLs that are on
the target domain, contain a speech-path hint and a topical keyword hint as
substrings of the lowercased URL, and contain a `\b(19|20)\d{2}\b` year token;
consequently every accepted URL is on the target domain and contains a year
token (in its original spelling too, since lowercasing preserves digits and
word characters). -/
theorem C4_classifier_iff (url : String) :
    (looks_like_new_year_speech_url url = true ↔
      (is_stm_url url = true ∧
       (∃ h ∈ SPEECH_PATH_HINTS, ∃ pre post, (pyLowerStr url).data = pre ++ h.data ++ post) ∧
       (∃ h ∈ NYTAAR_HINTS, ∃ pre post, (pyLowerStr url).data = pre ++ h.data ++ post) ∧
       (∃ i, yearHitAt (pyLowerStr url).data i = true))) ∧
    (looks_like_new_year_speech_url url = true →
      is_stm_url url = true ∧ ∃ i, yearHitAt url.data i = true) := by
  have hmap : (pyLowerStr url).data = url.data.map pyLowerChar := rfl
  have hiff : looks_like_new_year_speech_url url = true ↔
      (is_stm_url url = true ∧
       (∃ h ∈ SPEECH_PATH_HINTS, ∃ pre post, (pyLowerStr url).data = pre ++ h.data ++ post) ∧
       (∃ h ∈ NYTAAR_HINTS, ∃ pre post, (pyLowerStr url).data = pre ++ h.data ++ post) ∧
       (∃ i, yearHitAt (pyLowerStr url).data i = true)) := by
    rw [looks_like_eq]
    simp only [Bool.and_eq_true]
    constructor
    · rintro ⟨⟨⟨ha, hb⟩, hc⟩, hd⟩
      refine ⟨ha, ?_, ?_, ?_⟩
      · obtain ⟨hint, hmem, hcs⟩ := List.any_eq_true.mp hb
        exact ⟨hint, hmem, (listContains_iff _ _).mp hcs⟩
      · obtain ⟨hint, hmem, hcs⟩ := List.any_eq_true.mp hc
        exact ⟨hint, hmem, (listContains_iff _ _).mp hcs⟩
      · exact (year_re_search_isSome_iff _).mp hd
    · rintro ⟨ha, hb, hc, hd⟩
      refine ⟨⟨⟨ha, ?_⟩, ?_⟩, ?_⟩
      · obtain ⟨hint, hmem, hcs⟩ := hb
        exact List.any_eq_true.mpr ⟨hint, hmem, (listContains_iff _ _).mpr hcs⟩
      · obtain ⟨hint, hmem, hcs⟩ := hc
        exact List.any_eq_true.mpr ⟨hint, hmem, (listContains_iff _ _).mpr hcs⟩
      · exact (year_re_search_isSome_iff _).mpr hd
  refine ⟨hiff, ?_⟩
  intro h
  obtain ⟨ha, _, _, hi⟩ := hiff.mp h
  refine ⟨ha, ?_⟩
  obtain ⟨i, hyi⟩ := hi
  rw [hmap, yearHitAt_map_lower] at hyi
  exact ⟨i, hyi⟩

/-- C4 — witness: a real archive URL is accepted, lies on the target domain,
and carries a year token. -/
theorem C4_witness :
    looks_like_new_year_speech_url
      "https://stm.dk/statsministeren/taler/nytaarstale-2022/" = true ∧
    is_stm_url "https://stm.dk/statsministeren/taler/nytaarstale-2022/" = true ∧
    (∃ i, yearHitAt "https://stm.dk/statsministeren/taler/nytaarstale-2022/".data i = true) := by
  have hy : looks_like_new_year_speech_url
      "https://stm.dk/statsministeren/taler/nytaarstale-2022/" = true := by decide
  have h := (C4_classifier_iff "https://stm.dk/statsministeren/taler/nytaarstale-2022/").2 hy
  exact ⟨hy, h.1, h.2⟩

/-! ## Properties of the candidate mapping fold -/

theorem setdefaultFold_append (c : List (Nat × String)) (a b : List (Nat × String)) :
    setdefaultFold c (a ++ b) = setdefaultFold (setdefaultFold c a) b := by
  simp [setdefaultFold, List.foldl_append]

theorem mem_setdefaultStep {c : List (Nat × String)} {m x : Nat × String}
    (h : x ∈ setdefaultStep c m) : x ∈ c ∨ x = m := by
  unfold setdefaultStep at h
  split at h
  · exact Or.inl h
  · rcases List.mem_append.mp h with h | h
    · exact Or.inl h
    · exact Or.inr (List.mem_singleton.mp h)

theorem mem_setdefaultFold {ms : List (Nat × String)} :
    ∀ {c x}, x ∈ setdefaultFold c ms → x ∈ c ∨ x ∈ ms := by
  induction ms with
  | nil => intro c x h; exact Or.inl h
  | cons m ms ih =>
    intro c x h
    rcases ih h with h | h
    · rcases mem_setdefaultStep h with h | h
      · exact Or.inl h
      · exact Or.inr (by simp [h])
    · exact Or.inr (List.mem_cons_of_mem _ h)

theorem nodupKeys_setdefaultStep {c : List (Nat × String)} {m : Nat × String}
    (h : (c.map Prod.fst).Nodup) : ((setdefaultStep c m).map Prod.fst).Nodup := by
  unfold setdefaultStep
  split
  · exact h
  · next hlk =>
    have hnone : c.lookup m.1 = none := by
      cases hv : c.lookup m.1 with
      | none => rfl
      | some v => rw [hv] at hlk; simp at hlk
    have hmem : m.1 ∉ c.map Prod.fst := (lookup_eq_none_iff c m.1).mp hnone
    simp [List.nodup_append, h, hmem]

theorem nodupKeys_setdefaultFold (ms : List (Nat × String)) :
    ∀ c, (c.map Prod.fst).Nodup → ((setdefaultFold c ms).map Prod.fst).Nodup := by
  induction ms with
  | nil => intro c h; exact h
  | cons m ms ih => intro c h; exact ih _ (nodupKeys_setdefaultStep h)

theorem lookup_setdefaultFold (ms : List (Nat × String)) :
    ∀ c y, (setdefaultFold c ms).lookup y =
      optOr (c.lookup y) ((ms.find? (fun m => y == m.1)).map Prod.snd) := by
  induction ms with
  | nil =>
    intro c y
    have h0 : setdefaultFold c [] = c := rfl
    rw [h0]
    cases hc : c.lookup y with
    | none => simp [optOr]
    | some v => simp [optOr]
  | cons m ms ih =>
    intro c y
    show (setdefaultFold (setdefaultStep c m) ms).lookup y = _
    rw [ih]
    by_cases hy : y = m.1
    · subst hy
      have hf : ((m :: ms).find? (fun m' => m.1 == m'.1)) = some m := by
        simp [List.find?_cons]
      rw [hf]
      unfold setdefaultStep
      cases hc : c.lookup m.1 with
      | some v => simp [optOr, hc]
      | none =>
        simp only [hc, Option.isSome_none, Bool.false_eq_true, if_false]
        rw [lookup_append_single]
        simp [optOr, hc]
    · have hb : (y == m.1) = false := by simp [hy]
      have hf : ((m :: ms).find? (fun m' => y == m'.1)) = ms.find? (fun m' => y == m'.1) := by
        simp [List.find?_cons, hb]
      rw [hf]
      unfold setdefaultStep
      split
      · rfl
      · rw [lookup_append_single, if_neg hy]
        cases c.lookup y <;> simp [optOr]

/-! ## Structure of the paging loop -/

/-- One unfolding of the loop. -/
theorem collectGo_step (api : Nat → Nat → Except PostErr Json) (ci page fuel er : Nat)
    (c : List (Nat × String)) (r : List Nat) :
    collectGo api ci page (fuel+1) er c r =
      match api ci page with
      | .error e => .error e
      | .ok data =>
        if 2 ≤ (if (pageMatches data).length = 0 then er + 1 else 0) ∧ 3 ≤ page then
          .ok (setdefaultFold c (pageMatches data), r ++ [page], ci + 1)
        else collectGo api (ci+1) (page+1) fuel
          (if (pageMatches data).length = 0 then er + 1 else 0)
          (setdefaultFold c (pageMatches data)) (r ++ [page]) := rfl

/-- One unfolding of the loop under a stateless API. -/
theorem collectGo_stateless_step (pages : Nat → Json) (ci page fuel er : Nat)
    (c : List (Nat × String)) (r : List Nat) :
    collectGo (statelessApi pages) ci page (fuel+1) er c r =
      (if 2 ≤ (if (pageMatches (pages page)).length = 0 then er + 1 else 0) ∧ 3 ≤ page then
        .ok (setdefaultFold c (pageMatches (pages page)), r ++ [page], ci + 1)
      else
        collectGo (statelessApi pages) (ci+1) (page+1) fuel
          (if (pageMatches (pages page)).length = 0 then er + 1 else 0)
          (setdefaultFold c (pageMatches (pages page))) (r ++ [page])) := by
  simp [collectGo, statelessApi]

/-- A stateless API never aborts the loop. -/
theorem collectGo_stateless_ok (pages : Nat → Json) :
    ∀ fuel ci page er c r, ∃ c' r' n',
      collectGo (statelessApi pages) ci page fuel er c r = .ok (c', r', n') := by
  intro fuel
  induction fuel with
  | zero => intro ci page er c r; exact ⟨c, r, ci, rfl⟩
  | succ fuel ih =>
    intro ci page er c r
    rw [collectGo_stateless_step]
    by_cases hstop : 2 ≤ (if (pageMatches (pages page)).length = 0 then er + 1 else 0) ∧ 3 ≤ page
    · rw [if_pos hstop]
      exact ⟨_, _, _, rfl⟩
    · rw [if_neg hstop]
      exact ih _ _ _ _ _

/-- The requested pages extend the accumulator, and the request count grows by
exactly one per requested page. -/
theorem collectGo_shape (api : Nat → Nat → Except PostErr Json) :
    ∀ fuel ci page er c r c' r' n',
      collectGo api ci page fuel er c r = Except.ok (c', r', n') →
      ∃ ps, r' = r ++ ps ∧ n' = ci + ps.length := by
  intro fuel
  induction fuel with
  | zero =>
    intro ci page er c r c' r' n' h
    simp [collectGo] at h
    exact ⟨[], by simp [← h.2.1], by simp [← h.2.2]⟩
  | succ fuel ih =>
    intro ci page er c r c' r' n' h
    rw [collectGo_step] at h
    cases hapi : api ci page with
    | error e => rw [hapi] at h; simp at h
    | ok data =>
      rw [hapi] at h
      dsimp only at h
      split at h
      all_goals split at h
      all_goals first
        | (simp at h
           exact ⟨[page], by simp [← h.2.1], by simp [← h.2.2]⟩)
        | (obtain ⟨ps, hr, hn⟩ := ih _ _ _ _ _ _ _ _ h
           exact ⟨page :: ps, by simp [hr], by simp [hn]; omega⟩)

/-- Under a stateless API the final mapping is the `setdefault` fold of the
matches of the requested pages, in request order. -/
theorem collectGo_stateless_chr (pages : Nat → Json) :
    ∀ fuel ci page er c r c' r' n',
      collectGo (statelessApi pages) ci page fuel er c r = Except.ok (c', r', n') →
      ∃ ps, r' = r ++ ps ∧
        c' = setdefaultFold c ((ps.map (fun p => pageMatches (pages p))).flatten) := by
  intro fuel
  induction fuel with
  | zero =>
    intro ci page er c r c' r' n' h
    simp [collectGo] at h
    exact ⟨[], by simp [← h.2.1], by simp [← h.1, setdefaultFold]⟩
  | succ fuel ih =>
    intro ci page er c r c' r' n' h
    rw [collectGo_stateless_step] at h
    split at h
    all_goals split at h
    all_goals first
      | (simp at h
         refine ⟨[page], by simp [← h.2.1], ?_⟩
         rw [← h.1]
         simp)
      | (obtain ⟨ps, hr, hc⟩ := ih _ _ _ _ _ _ _ _ h
         refine ⟨page :: ps, by simp [hr], ?_⟩
         rw [hc, List.map_cons, List.flatten_cons, setdefaultFold_append])

/-- Every entry of the final mapping comes from the matches of some response
the API returned. -/
theorem collectGo_cands_mem (api : Nat → Nat → Except PostErr Json) :
    ∀ fuel ci page er c r c' r' n',
      collectGo api ci page fuel er c r = Except.ok (c', r', n') →
      ∀ m, m ∈ c' → m ∈ c ∨ ∃ j, (∃ q p, api q p = .ok j) ∧ m ∈ pageMatches j := by
  intro fuel
  induction fuel with
  | zero =>
    intro ci page er c r c' r' n' h m hm
    simp [collectGo] at h
    rw [← h.1] at hm
    exact Or.inl hm
  | succ fuel ih =>
    intro ci page er c r c' r' n' h m hm
    rw [collectGo_step] at h
    cases hapi : api ci page with
    | error e => rw [hapi] at h; simp at h
    | ok data =>
      rw [hapi] at h
      dsimp only at h
      split at h
      all_goals split at h
      all_goals first
        | (simp at h
           rw [← h.1] at hm
           rcases mem_setdefaultFold hm with hmc | hmm
           · exact Or.inl hmc
           · exact Or.inr ⟨data, ⟨ci, page, hapi⟩, hmm⟩)
        | (rcases ih _ _ _ _ _ _ _ _ h m hm with hmc | hj
           · rcases mem_setdefaultFold hmc with hmc | hmm
             · exact Or.inl hmc
             · exact Or.inr ⟨data, ⟨ci, page, hapi⟩, hmm⟩
           · exact Or.inr hj)

/-- The loop never duplicates a year key. -/
theorem collectGo_nodup (api : Nat → Nat → Except PostErr Json) :
    ∀ fuel ci page er c r c' r' n',
      collectGo api ci page fuel er c r = Except.ok (c', r', n') →
      (c.map Prod.fst).Nodup → (c'.map Prod.fst).Nodup := by
  intro fuel
  induction fuel with
  | zero =>
    intro ci page er c r c' r' n' h hc
    simp [collectGo] at h
    rw [← h.1]
    exact hc
  | succ fuel ih =>
    intro ci page er c r c' r' n' h hc
    rw [collectGo_step] at h
    cases hapi : api ci page with
    | error e => rw [hapi] at h; simp at h
    | ok data =>
      rw [hapi] at h
      dsimp only at h
      split at h
      all_goals split at h
      all_goals first
        | (simp at h
           rw [← h.1]
           exact nodupKeys_setdefaultFold _ _ hc)
        | exact ih _ _ _ _ _ _ _ _ h (nodupKeys_setdefaultFold _ _ hc)

/-- Requested pages lie in the window the loop can reach. -/
theorem collectGo_reqs_bound (api : Nat → Nat → Except PostErr Json) :
    ∀ fuel ci page er c r c' r' n',
      collectGo api ci page fuel er c r = Except.ok (c', r', n') →
      ∀ q ∈ r', q ∈ r ∨ (page ≤ q ∧ q < page + fuel) := by
  intro fuel
  induction fuel with
  | zero =>
    intro ci page er c r c' r' n' h q hq
    simp [collectGo] at h
    rw [← h.2.1] at hq
    exact Or.inl hq
  | succ fuel ih =>
    intro ci page er c r c' r' n' h q hq
    rw [collectGo_step] at h
    cases hapi : api ci page with
    | error e => rw [hapi] at h; simp at h
    | ok data =>
      rw [hapi] at h
      dsimp only at h
      split at h
      all_goals split at h
      all_goals first
        | (simp at h
           rw [← h.2.1] at hq
           rcases List.mem_append.mp hq with hq | hq
           · exact Or.inl hq
           · have : q = page := List.mem_singleton.mp hq
             exact Or.inr ⟨by omega, by omega⟩)
        | (rcases ih _ _ _ _ _ _ _ _ h q hq with hq | ⟨h1, h2⟩
           · rcases List.mem_append.mp hq with hq | hq
             · exact Or.inl hq
             · have : q = page := List.mem_singleton.mp hq
               exact Or.inr ⟨by omega, by omega⟩
           · exact Or.inr ⟨by omega, by omega⟩)

/-! ## First-seen-wins (claim C7) -/

/-- All `(year, url)` matches of the requested pages, in scan order. -/
def allMatches (pages : Nat → Json) (reqs : List Nat) : List (Nat × String) :=
  (reqs.map (fun p => pageMatches (pages p))).flatten

/-- C7: for every fixed sequence of page responses, the final candidate
mapping binds each year to the URL of its *earliest* occurrence in scan order
(across the requested pages); a year already present is never overwritten. -/
theorem C7_first_seen_wins (pages : Nat → Json) (maxPages : Nat)
    (cands : List (Nat × String)) (reqs : List Nat) (n : Nat)
    (h : collect_candidates_from_api (statelessApi pages) maxPages =
      Except.ok (cands, reqs, n)) :
    ∀ y, cands.lookup y =
      ((allMatches pages reqs).find? (fun m => y == m.1)).map Prod.snd := by
  obtain ⟨ps, hr, hc⟩ :=
    collectGo_stateless_chr pages maxPages 0 1 0 [] [] cands reqs n h
  intro y
  have hps : reqs = ps := by simpa using hr
  rw [hc, lookup_setdefaultFold, hps]
  simp [optOr, allMatches]

/-- Two same-year candidates with different URLs, on one page. -/
def urlA : String := "https://stm.dk/statsministeren/taler/nytaarstale-2001-a/"

/-- A second URL for the same year. -/
def urlB : String := "https://stm.dk/statsministeren/taler/nytaarstale-2001-b/"

/-- Page fixture: page 1 offers the same year twice with different URLs. -/
def pagesDup : Nat → Json :=
  fun p => if p = 1 then Json.arr [.str urlA, .str urlB] else Json.null

/-- C7 — witness: with two URLs for year 2001 in scan order `urlA, urlB`,
the mapping retains `urlA`. -/
theorem C7_witness :
    allMatches pagesDup [1, 2, 3] = [(2001, urlA), (2001, urlB)] ∧
    (collectCands pagesDup MAX_PAGES).lookup 2001 = some urlA := by
  have hok : collect_candidates_from_api (statelessApi pagesDup) MAX_PAGES =
      Except.ok ([(2001, urlA)], [1, 2, 3], 3) := by rfl
  have h := C7_first_seen_wins pagesDup MAX_PAGES [(2001, urlA)] [1, 2, 3] 3 hok 2001
  refine ⟨by rfl, ?_⟩
  have hcn : collectCands pagesDup MAX_PAGES = [(2001, urlA)] := by
    unfold collectCands
    rw [hok]
  rw [hcn]
  rw [h]
  rfl

/-! ## Recorded year = first year token of the URL (claim C8) -/

/-- A URL whose first year token (1940, from the path hint segment) differs
from the year named later in the URL (2005). -/
def url1940 : String :=
  "https://stm.dk/statsministeren/nytaarstaler-siden-1940/nytaarstale-2005/"

/-- C8: every `(year, url)` pair the collector records satisfies
`year_re_search url = some year` — the year is the value of the leftmost
`\b(19|20)\d{2}\b` token of the URL; in particular a URL under the
`nytaarstaler-siden-1940` hint records year 1940 even though a later token
names 2005. -/
theorem C8_year_is_first_token (api : Nat → Nat → Except PostErr Json)
    (maxPages : Nat) (cands : List (Nat × String)) (reqs : List Nat) (n : Nat)
    (h : collect_candidates_from_api api maxPages = Except.ok (cands, reqs, n)) :
    (∀ y u, (y, u) ∈ cands → year_re_search u = some y) ∧
    classifyString url1940 = some (1940, url1940) ∧
    year_re_search url1940 = some 1940 := by
  refine ⟨?_, by rfl, by rfl⟩
  intro y u hm
  rcases collectGo_cands_mem api maxPages 0 1 0 [] [] cands reqs n h (y, u) hm
    with hc | ⟨j, _, hj⟩
  · simp at hc
  · obtain ⟨s, _, hcls⟩ := List.mem_filterMap.mp hj
    unfold classifyString at hcls
    cases hn : normalize_url s with
    | none => rw [hn] at hcls; simp at hcls
    | some url =>
      rw [hn] at hcls
      dsimp only at hcls
      by_cases hl : looks_like_new_year_speech_url url = true
      · rw [if_pos hl] at hcls
        cases hy : year_re_search url with
        | none => rw [hy] at hcls; simp at hcls
        | some y' =>
          rw [hy] at hcls
          simp at hcls
          rw [← hcls.2, ← hcls.1]
          exact hy
      · rw [if_neg hl] at hcls
        simp at hcls

/-- Page fixture for the 1940 URL. -/
def pages1940 : Nat → Json :=
  fun p => if p = 1 then Json.str url1940 else Json.null

/-- C8 — witness: the 1940 URL is collected with year 1940, not 2005. -/
theorem C8_witness :
    (1940, url1940) ∈ collectCands pages1940 MAX_PAGES ∧
    year_re_search url1940 = some 1940 := by
  have hok : collect_candidates_from_api (statelessApi pages1940) MAX_PAGES =
      Except.ok ([(1940, url1940)], [1, 2, 3], 3) := by rfl
  have h := (C8_year_is_first_token (statelessApi pages1940) MAX_PAGES
    [(1940, url1940)] [1, 2, 3] 3 hok).1 1940 url1940 (by simp)
  refine ⟨?_, h⟩
  have hcn : collectCands pages1940 MAX_PAGES = [(1940, url1940)] := by
    unfold collectCands
    rw [hok]
  rw [hcn]
  simp

/-! ## The early-stop heuristic (claim C3) -/

/-- C3 — counterexample.  The claim quantifies over sequences where pages 3
and 4 yield zero matches, *including* the case where no earlier page yields a
match; but when pages 1 and 2 are also empty the loop breaks after page 3
(three consecutive empty pages), so page 4 is never requested, contradicting
"the collector requests pages 1 through 4". -/
theorem C3_counterexample :
    pageMatches (Json.obj []) = [] ∧
    collectReqs (fun _ => Json.obj []) MAX_PAGES = [1, 2, 3] ∧
    4 ∉ collectReqs (fun _ => Json.obj []) MAX_PAGES := by
  have hr : collectReqs (fun _ => Json.obj []) MAX_PAGES = [1, 2, 3] := by rfl
  exact ⟨rfl, hr, by rw [hr]; decide⟩

/-- C3 (amended): provided page 2 contributes at least one match (so the run
reaches page 3 with no pending empty streak) and pages 3 and 4 contribute
zero matches, the collector requests exactly pages 1–4 whenever the page
budget is at least 4, and page 5 is never requested under any page budget
(paging stops at page 4, the first page ≥ 3 ending two consecutive
zero-match pages). -/
theorem C3_early_stop (pages : Nat → Json)
    (h2 : pageMatches (pages 2) ≠ [])
    (h3 : pageMatches (pages 3) = [])
    (h4 : pageMatches (pages 4) = []) :
    (∀ k, collectReqs pages (k + 4) = [1, 2, 3, 4]) ∧
    (∀ maxPages, 5 ∉ collectReqs pages maxPages) := by
  have hlen2 : ¬((pageMatches (pages 2)).length = 0) := by
    intro hl
    exact h2 (List.length_eq_zero.mp hl)
  have hlen3 : (pageMatches (pages 3)).length = 0 := by rw [h3]; rfl
  have hlen4 : (pageMatches (pages 4)).length = 0 := by rw [h4]; rfl
  have hmain : ∀ k, ∃ c, collectGo (statelessApi pages) 0 1 (k + 4) 0 [] [] =
      Except.ok (c, [1, 2, 3, 4], 4) := by
    intro k
    have hk4 : k + 4 = (k + 3) + 1 := by omega
    have hk3 : k + 3 = (k + 2) + 1 := by omega
    have hk2 : k + 2 = (k + 1) + 1 := by omega
    rw [hk4, collectGo_stateless_step]
    rw [if_neg (fun hc => absurd hc.2 (by omega))]
    rw [hk3, collectGo_stateless_step]
    rw [if_neg hlen2]
    rw [if_neg (fun hc => absurd hc.1 (by omega))]
    rw [hk2, collectGo_stateless_step]
    rw [if_pos hlen3]
    rw [if_neg (fun hc => absurd hc.1 (by omega))]
    rw [collectGo_stateless_step]
    rw [if_pos hlen4]
    rw [if_pos (by omega : 2 ≤ 0 + 1 + 1 ∧ 3 ≤ 4)]
    exact ⟨setdefaultFold (setdefaultFold (setdefaultFold
      (setdefaultFold [] (pageMatches (pages 1))) (pageMatches (pages 2)))
      (pageMatches (pages 3))) (pageMatches (pages 4)), by simp⟩
  have hpart1 : ∀ k, collectReqs pages (k + 4) = [1, 2, 3, 4] := by
    intro k
    obtain ⟨c, hc⟩ := hmain k
    unfold collectReqs collect_candidates_from_api
    rw [hc]
  refine ⟨hpart1, ?_⟩
  intro maxPages hmem
  by_cases hbig : 4 ≤ maxPages
  · obtain ⟨k, hk⟩ : ∃ k, maxPages = k + 4 := ⟨maxPages - 4, by omega⟩
    rw [hk, hpart1 k] at hmem
    simp at hmem
  · obtain ⟨c', r', n', hok⟩ := collectGo_stateless_ok pages maxPages 0 1 0 [] []
    have hre : collectReqs pages maxPages = r' := by
      unfold collectReqs collect_candidates_from_api
      rw [hok]
    rw [hre] at hmem
    rcases collectGo_reqs_bound (statelessApi pages) maxPages 0 1 0 [] [] c' r' n'
      hok 5 hmem with h5 | ⟨_, h5b⟩
    · simp at h5
    · omega

/-- Page fixture for the early-stop witness: only page 2 has a match. -/
def pagesEarly : Nat → Json :=
  fun p => if p = 2 then Json.str urlA else Json.null

/-- C3 — witness: with a match on page 2 and empty pages 3–4, the collector
requests exactly pages 1–4 at the script's budget of 20, and never page 5
even at a budget of 7. -/
theorem C3_witness :
    collectReqs pagesEarly 20 = [1, 2, 3, 4] ∧
    5 ∉ collectReqs pagesEarly 7 := by
  have h := C3_early_stop pagesEarly (by decide) (by rfl) (by rfl)
  exact ⟨h.1 16, h.2 7⟩

/-! ## The fetch-and-write loop -/

/-- Every loop iteration records its fetch attempt, whatever the outcome. -/
theorem processYear_fetched (env : Env) (cands : List (Nat × String))
    (st : LoopSt) (year : Nat) :
    (processYear env cands st year).fetched = st.fetched ++ [year] := by
  unfold processYear
  dsimp only
  repeat' split
  all_goals rfl

/-- The loop attempts every year it is given, in order, regardless of per-year
failures. -/
theorem fetchLoop_fetched (env : Env) (cands : List (Nat × String)) :
    ∀ years st, (fetchLoop env cands years st).fetched = st.fetched ++ years := by
  intro years
  induction years with
  | nil => intro st; simp [fetchLoop]
  | cons y ys ih =>
    intro st
    show (fetchLoop env cands ys (processYear env cands st y)).fetched = _
    rw [ih, processYear_fetched]
    simp

/-- Overwriting one year's file leaves every other key's lookup unchanged
(map branch of `diskWrite`). -/
theorem lookup_map_overwrite (d : List (Nat × String)) (y : Nat)
    (content : String) (z : Nat) (h : z ≠ y) :
    (d.map (fun p => if p.1 = y then (y, content) else p)).lookup z =
      d.lookup z := by
  induction d with
  | nil => rfl
  | cons p t ih =>
    rw [List.map_cons]
    by_cases hp : p.1 = y
    · rw [if_pos hp]
      have hzy : (z == y) = false := by simp [h]
      have hzp : (z == p.1) = false := by simp [hp, h]
      simp [List.lookup, hzy, hzp, ih]
    · rw [if_neg hp]
      by_cases hzp : z = p.1
      · have hb : (z == p.1) = true := by simp [hzp]
        simp [List.lookup, hb]
      · have hb : (z == p.1) = false := by simp [hzp]
        simp [List.lookup, hb, ih]

/-- `diskWrite` changes at most the written year's entry. -/
theorem diskWrite_lookup_ne (d : List (Nat × String)) (y : Nat)
    (content : String) (z : Nat) (h : z ≠ y) :
    (diskWrite d y content).lookup z = d.lookup z := by
  unfold diskWrite
  split
  · exact lookup_map_overwrite d y content z h
  · rw [lookup_append_single]
    cases hlz : d.lookup z <;> simp [optOr, h]

/-- One loop iteration changes at most the processed year's file. -/
theorem processYear_disk_pres (env : Env) (cands : List (Nat × String))
    (st : LoopSt) (year : Nat) (z : Nat) (hz : z ≠ year) :
    (processYear env cands st year).disk.lookup z = st.disk.lookup z := by
  unfold processYear
  dsimp only
  repeat' split
  all_goals first
    | rfl
    | (show (diskWrite st.disk year _).lookup z = st.disk.lookup z
       exact diskWrite_lookup_ne _ _ _ _ hz)

/-- Disk entries that change over the loop belong to attempted years. -/
theorem fetchLoop_disk_inv (env : Env) (cands : List (Nat × String))
    (disk0 : List (Nat × String)) :
    ∀ years (st : LoopSt),
      (∀ z, st.disk.lookup z ≠ disk0.lookup z → z ∈ st.fetched) →
      ∀ z, (fetchLoop env cands years st).disk.lookup z ≠ disk0.lookup z →
        z ∈ (fetchLoop env cands years st).fetched := by
  intro years
  induction years with
  | nil => intro st hinv z; exact hinv z
  | cons y ys ih =>
    intro st hinv z
    show (fetchLoop env cands ys (processYear env cands st y)).disk.lookup z ≠ _ →
      z ∈ (fetchLoop env cands ys (processYear env cands st y)).fetched
    apply ih
    intro z' hz'
    rw [processYear_fetched]
    by_cases hzy : z' = y
    · simp [hzy]
    · rw [processYear_disk_pres _ _ _ _ _ hzy] at hz'
      exact List.mem_append_left _ (hinv z' hz')

/-! ## Sorting helpers -/

theorem mem_insertAsc (x : Nat) :
    ∀ (l : List Nat) (z : Nat), z ∈ insertAsc x l ↔ z = x ∨ z ∈ l := by
  intro l
  induction l with
  | nil => intro z; simp [insertAsc]
  | cons y ys ih =>
    intro z
    unfold insertAsc
    split
    · simp
    · simp [ih]
      tauto

theorem mem_sortAsc (l : List Nat) (z : Nat) : z ∈ sortAsc l ↔ z ∈ l := by
  induction l with
  | nil => simp [sortAsc]
  | cons y ys ih =>
    show z ∈ insertAsc y (sortAsc ys) ↔ _
    rw [mem_insertAsc]
    simp [ih]

theorem mem_insertDesc (x : Nat) :
    ∀ (l : List Nat) (z : Nat), z ∈ insertDesc x l ↔ z = x ∨ z ∈ l := by
  intro l
  induction l with
  | nil => intro z; simp [insertDesc]
  | cons y ys ih =>
    intro z
    unfold insertDesc
    split
    · simp
    · simp [ih]
      tauto

theorem mem_sortDesc (l : List Nat) (z : Nat) : z ∈ sortDesc l ↔ z ∈ l := by
  induction l with
  | nil => simp [sortDesc]
  | cons y ys ih =>
    show z ∈ insertDesc y (sortDesc ys) ↔ _
    rw [mem_insertDesc]
    simp [ih]

/-- The missing years are exactly the candidate years with no file on disk. -/
theorem mem_missingYears (cands disk0 : List (Nat × String)) (y : Nat) :
    y ∈ missingYears cands disk0 ↔
      (y ∈ cands.map Prod.fst ∧ disk0.lookup y = none) := by
  unfold missingYears
  rw [List.mem_filter, mem_sortDesc]
  simp [Option.isNone_iff_eq_none]

/-! ## Exit-code policy (claim C2) -/

/-- C2: once collection has produced a non-empty candidate mapping, the run
exits 0 exactly when nothing was missing or at least one file was written,
exits 1 exactly when years were missing but nothing could be written, and the
loop attempts every missing year in ascending order regardless of per-year
fetch, extraction, or write failures. -/
theorem C2_exit_code_policy (env : Env) (disk0 : List (Nat × String))
    (cands : List (Nat × String)) (reqs : List Nat) (n : Nat)
    (hc : collect_candidates_from_api env.api MAX_PAGES = Except.ok (cands, reqs, n))
    (hne : cands ≠ []) :
    (script_exit_code (mainRun env disk0) = 0 ↔
      (missingYears cands disk0 = [] ∨ 1 ≤ (mainRun env disk0).wrote)) ∧
    (script_exit_code (mainRun env disk0) = 1 ↔
      (missingYears cands disk0 ≠ [] ∧ (mainRun env disk0).wrote = 0)) ∧
    (mainRun env disk0).fetched = sortAsc (missingYears cands disk0) := by
  by_cases hm : missingYears cands disk0 = []
  · have hmo : mainRun env disk0 = ⟨.ret 0, disk0, none, [], 0⟩ := by
      unfold mainRun
      rw [hc]
      dsimp only
      rw [if_neg hne, if_pos hm]
    rw [hmo]
    refine ⟨?_, ?_, ?_⟩
    · simp [script_exit_code, hm]
    · simp [script_exit_code, hm]
    · show ([] : List Nat) = sortAsc (missingYears cands disk0)
      rw [hm]
      rfl
  · set stv := fetchLoop env cands (sortAsc (missingYears cands disk0)) ⟨disk0, 0, []⟩
      with hst
    have hmo : mainRun env disk0 =
        ⟨.ret (if stv.wrote = 0 then 1 else 0), stv.disk, none, stv.fetched,
          stv.wrote⟩ := by
      unfold mainRun
      rw [hc]
      dsimp only
      rw [if_neg hne, if_neg hm, ← hst]
    rw [hmo]
    dsimp only
    have hfet : stv.fetched = sortAsc (missingYears cands disk0) := by
      rw [hst, fetchLoop_fetched]
      simp
    refine ⟨?_, ?_, hfet⟩
    · by_cases hw : stv.wrote = 0
      · simp [script_exit_code, hw, hm]
      · simp [script_exit_code, hw, hm, Nat.one_le_iff_ne_zero]
    · by_cases hw : stv.wrote = 0
      · simp [script_exit_code, hw, hm]
      · simp [script_exit_code, hw, hm]

/-- A page whose extraction succeeds: a title and a 400-character paragraph. -/
def page2022 : ParsedPage := ⟨some "Nytårstalen", [longPara]⟩

/-- The 2022 speech URL. -/
def url2022 : String := "https://stm.dk/statsministeren/taler/nytaarstale-2022/"

/-- Environment in which everything succeeds and page 1 offers one URL. -/
def envOK : Env :=
  { api := statelessApi (fun p => if p = 1 then Json.str url2022 else Json.null)
    get_html := fun _ => .ok page2022
    writeOk := fun _ => true
    dateStr := "2026-01-01" }

/-- C2 — witness: one missing year, successfully written, exits 0. -/
theorem C2_witness :
    script_exit_code (mainRun envOK []) = 0 ∧ (mainRun envOK []).wrote = 1 := by
  have hok : collect_candidates_from_api envOK.api MAX_PAGES =
      Except.ok ([(2022, url2022)], [1, 2, 3], 3) := by rfl
  have h := C2_exit_code_policy envOK [] [(2022, url2022)] [1, 2, 3] 3 hok (by simp)
  have hw : (mainRun envOK []).wrote = 1 := by rfl
  refine ⟨h.1.mpr (Or.inr ?_), hw⟩
  rw [hw]

/-! ## Reconciler invariants (claim C9) -/

/-- C9: the candidate mapping holds at most one URL per year; the loop fetches
only candidate years with no file on disk; pre-existing files keep their
content; and any disk entry that differs after the run belongs to a fetched
year (so files are only added, never modified or removed — the final file set
is a superset of the initial one). -/
theorem C9_reconciler_invariants (env : Env) (disk0 : List (Nat × String))
    (cands : List (Nat × String)) (reqs : List Nat) (n : Nat)
    (hc : collect_candidates_from_api env.api MAX_PAGES = Except.ok (cands, reqs, n)) :
    (cands.map Prod.fst).Nodup ∧
    (∀ y ∈ (mainRun env disk0).fetched,
      disk0.lookup y = none ∧ y ∈ cands.map Prod.fst) ∧
    (∀ y c0, disk0.lookup y = some c0 →
      (mainRun env disk0).disk.lookup y = some c0) ∧
    (∀ y, (mainRun env disk0).disk.lookup y ≠ disk0.lookup y →
      y ∈ (mainRun env disk0).fetched) := by
  have hnodup : (cands.map Prod.fst).Nodup :=
    collectGo_nodup env.api MAX_PAGES 0 1 0 [] [] cands reqs n hc (by simp)
  by_cases hne : cands = []
  · cases hdbg : env.api n 1 with
    | error e =>
      have hmo : mainRun env disk0 = ⟨.raised .apiFailure, disk0, none, [], 0⟩ := by
        unfold mainRun
        rw [hc]
        dsimp only
        rw [if_pos hne, hdbg]
      rw [hmo]
      exact ⟨hnodup, by simp, fun y c0 h => h, fun y h => absurd rfl h⟩
    | ok dbg =>
      have hmo : mainRun env disk0 =
          ⟨.raised .zeroCandidates, disk0, some dbg, [], 0⟩ := by
        unfold mainRun
        rw [hc]
        dsimp only
        rw [if_pos hne, hdbg]
      rw [hmo]
      exact ⟨hnodup, by simp, fun y c0 h => h, fun y h => absurd rfl h⟩
  · by_cases hm : missingYears cands disk0 = []
    · have hmo : mainRun env disk0 = ⟨.ret 0, disk0, none, [], 0⟩ := by
        unfold mainRun
        rw [hc]
        dsimp only
        rw [if_neg hne, if_pos hm]
      rw [hmo]
      exact ⟨hnodup, by simp, fun y c0 h => h, fun y h => absurd rfl h⟩
    · set stv := fetchLoop env cands (sortAsc (missingYears cands disk0)) ⟨disk0, 0, []⟩
        with hst
      have hmo : mainRun env disk0 =
          ⟨.ret (if stv.wrote = 0 then 1 else 0), stv.disk, none, stv.fetched,
            stv.wrote⟩ := by
        unfold mainRun
        rw [hc]
        dsimp only
        rw [if_neg hne, if_neg hm, ← hst]
      rw [hmo]
      dsimp only
      have hfet : stv.fetched = sortAsc (missingYears cands disk0) := by
        rw [hst, fetchLoop_fetched]
        simp
      have hmemf : ∀ y, y ∈ stv.fetched →
          disk0.lookup y = none ∧ y ∈ cands.map Prod.fst := by
        intro y hy
        rw [hfet, mem_sortAsc] at hy
        have hmem := (mem_missingYears cands disk0 y).mp hy
        exact ⟨hmem.2, hmem.1⟩
      have hinv4 : ∀ y, stv.disk.lookup y ≠ disk0.lookup y → y ∈ stv.fetched := by
        rw [hst]
        exact fetchLoop_disk_inv env cands disk0 _ ⟨disk0, 0, []⟩
          (fun z h => absurd rfl h)
      refine ⟨hnodup, fun y hy => hmemf y hy, ?_, hinv4⟩
      intro y c0 h
      by_cases heq : stv.disk.lookup y = disk0.lookup y
      · rw [heq, h]
      · have hyf := hinv4 y heq
        have := (hmemf y hyf).1
        rw [this] at h
        cases h

/-- The 2021 speech URL. -/
def url2021 : String := "https://stm.dk/statsministeren/taler/nytaarstale-2021/"

/-- Page fixture offering years 2021 and 2022. -/
def pagesTwo : Nat → Json :=
  fun p => if p = 1 then Json.arr [.str url2021, .str url2022] else Json.null

/-- A disk that already holds year 2021. -/
def disk2021 : List (Nat × String) := [(2021, "old")]

/-- Environment for the reconciliation witness. -/
def envTwo : Env :=
  { api := statelessApi pagesTwo
    get_html := fun _ => .ok page2022
    writeOk := fun _ => true
    dateStr := "2026-01-01" }

/-- C9 — witness: with `{2021, 2022}` as candidates and 2021 already on disk,
only 2022 is fetched and the 2021 file keeps its content. -/
theorem C9_witness :
    (mainRun envTwo disk2021).fetched = [2022] ∧
    (mainRun envTwo disk2021).disk.lookup 2021 = some "old" := by
  have hok : collect_candidates_from_api envTwo.api MAX_PAGES =
      Except.ok ([(2021, url2021), (2022, url2022)], [1, 2, 3], 3) := by rfl
  have h := C9_reconciler_invariants envTwo disk2021 _ _ _ hok
  exact ⟨by rfl, h.2.2.1 2021 "old" (by rfl)⟩

/-! ## Zero candidates (claims C1 and C10) -/

/-- API whose first three requests return an empty object and which then goes
down: collection sees only empty pages, and the follow-up diagnostic request
fails. -/
def apiDies : Nat → Nat → Except PostErr Json :=
  fun ci _page => if ci ≤ 2 then .ok Json.objNil else .error .transport

/-- Environment built on `apiDies`. -/
def envDies : Env :=
  { api := apiDies
    get_html := fun _ => .error ()
    writeOk := fun _ => true
    dateStr := "2026-01-01" }

/-- C1 — counterexample.  The claim asserts that a diagnostic file is written
whenever collection yields zero candidates; but when the follow-up page-1
request itself fails, `post_json` raises before the file write, so the run
exits 1 with *no* diagnostic file. -/
theorem C1_counterexample :
    collect_candidates_from_api envDies.api MAX_PAGES =
      Except.ok ([], [1, 2, 3], 3) ∧
    script_exit_code (mainRun envDies []) = 1 ∧
    (mainRun envDies []).debugFile = none := by
  exact ⟨rfl, rfl, rfl⟩

/-- C1 (amended): if candidate collection returns an empty year-to-URL
mapping, the run always fails with exit status 1 (never a successful
"nothing to do" outcome), no archive file is written, and — provided the
follow-up page-1 request succeeds — a diagnostic file holding that response
is written; if the follow-up request fails, no diagnostic file is written. -/
theorem C1_zero_candidates (env : Env) (disk0 : List (Nat × String))
    (reqs : List Nat) (n : Nat)
    (hc : collect_candidates_from_api env.api MAX_PAGES = Except.ok ([], reqs, n)) :
    script_exit_code (mainRun env disk0) = 1 ∧
    (mainRun env disk0).disk = disk0 ∧
    (mainRun env disk0).wrote = 0 ∧
    (∀ dbg, env.api n 1 = .ok dbg → (mainRun env disk0).debugFile = some dbg) ∧
    (∀ e, env.api n 1 = .error e → (mainRun env disk0).debugFile = none) := by
  cases hdbg : env.api n 1 with
  | error e =>
    have hmo : mainRun env disk0 = ⟨.raised .apiFailure, disk0, none, [], 0⟩ := by
      unfold mainRun
      rw [hc]
      dsimp only
      rw [if_pos rfl, hdbg]
    rw [hmo]
    refine ⟨rfl, rfl, rfl, ?_, fun e' h => rfl⟩
    intro dbg h
    cases h
  | ok dbg0 =>
    have hmo : mainRun env disk0 =
        ⟨.raised .zeroCandidates, disk0, some dbg0, [], 0⟩ := by
      unfold mainRun
      rw [hc]
      dsimp only
      rw [if_pos rfl, hdbg]
    rw [hmo]
    refine ⟨rfl, rfl, rfl, ?_, ?_⟩
    · intro dbg h
      injection h with h
      rw [h]
    · intro e h
      cases h

/-- All pages empty, follow-up request reachable. -/
def envEmptyOk : Env :=
  { api := statelessApi (fun _ => Json.objNil)
    get_html := fun _ => .error ()
    writeOk := fun _ => true
    dateStr := "2026-01-01" }

/-- C1 — witness: empty pages throughout make the run exit 1 and write the
fresh page-1 response to the diagnostic file. -/
theorem C1_witness :
    script_exit_code (mainRun envEmptyOk []) = 1 ∧
    (mainRun envEmptyOk []).debugFile = some Json.objNil := by
  have hok : collect_candidates_from_api envEmptyOk.api MAX_PAGES =
      Except.ok ([], [1, 2, 3], 3) := by rfl
  have h := C1_zero_candidates envEmptyOk [] [1, 2, 3] 3 hok
  exact ⟨h.1, h.2.2.2.1 Json.objNil (by rfl)⟩

/-- C10: in the zero-candidate path the diagnostic request is an *additional*
request — its call index `n` equals the number of requests collection issued
(at least one) — and the diagnostic file holds exactly that fresh response;
when that request fails, the run exits 1 with no diagnostic file and the disk
untouched. -/
theorem C10_debug_request_fresh (env : Env) (disk0 : List (Nat × String))
    (reqs : List Nat) (n : Nat)
    (hc : collect_candidates_from_api env.api MAX_PAGES = Except.ok ([], reqs, n)) :
    n = reqs.length ∧ 1 ≤ n ∧
    (∀ dbg, env.api n 1 = .ok dbg →
      (mainRun env disk0).debugFile = some dbg ∧
      (mainRun env disk0).outcome = .raised .zeroCandidates) ∧
    (∀ e, env.api n 1 = .error e →
      (mainRun env disk0).debugFile = none ∧
      script_exit_code (mainRun env disk0) = 1 ∧
      (mainRun env disk0).disk = disk0) := by
  obtain ⟨ps, hr, hn⟩ :=
    collectGo_shape env.api MAX_PAGES 0 1 0 [] [] [] reqs n hc
  have hlen : n = reqs.length := by rw [hr, hn]; simp
  have hpos : 1 ≤ n := by
    have hcc := hc
    unfold collect_candidates_from_api at hcc
    rw [show MAX_PAGES = 19 + 1 from rfl, collectGo_step] at hcc
    cases happ : env.api 0 1 with
    | error e => rw [happ] at hcc; simp at hcc
    | ok data =>
      rw [happ] at hcc
      dsimp only at hcc
      split at hcc
      all_goals split at hcc
      all_goals first
        | (obtain ⟨-, -, h3⟩ := by simpa using hcc
           omega)
        | (obtain ⟨ps', hr', hn'⟩ := collectGo_shape env.api _ _ _ _ _ _ _ _ _ hcc
           omega)
  refine ⟨hlen, hpos, ?_, ?_⟩
  · intro dbg hdbg
    have hmo : mainRun env disk0 =
        ⟨.raised .zeroCandidates, disk0, some dbg, [], 0⟩ := by
      unfold mainRun
      rw [hc]
      dsimp only
      rw [if_pos rfl, hdbg]
    rw [hmo]
    exact ⟨rfl, rfl⟩
  · intro e hdbg
    have hmo : mainRun env disk0 = ⟨.raised .apiFailure, disk0, none, [], 0⟩ := by
      unfold mainRun
      rw [hc]
      dsimp only
      rw [if_pos rfl, hdbg]
    rw [hmo]
    exact ⟨rfl, rfl, rfl⟩

/-- API whose page-1 answer differs between collection time (call indices
0–2, "stale") and the diagnostic request (call index 3, "fresh"). -/
def apiFresh : Nat → Nat → Except PostErr Json :=
  fun ci _page => .ok (if ci = 3 then Json.str "fresh" else Json.str "stale")

/-- Environment built on `apiFresh`. -/
def envFresh : Env :=
  { api := apiFresh
    get_html := fun _ => .error ()
    writeOk := fun _ => true
    dateStr := "2026-01-01" }

/-- C10 — witness: the diagnostic file holds the *fresh* page-1 response of
the extra request, not the page-1 response collection received. -/
theorem C10_witness :
    (mainRun envFresh []).debugFile = some (Json.str "fresh") ∧
    envFresh.api 0 1 = .ok (Json.str "stale") := by
  have hok : collect_candidates_from_api envFresh.api MAX_PAGES =
      Except.ok ([], [1, 2, 3], 3) := by rfl
  have h := C10_debug_request_fresh envFresh [] [1, 2, 3] 3 hok
  exact ⟨(h.2.2.1 (Json.str "fresh") (by rfl)).1, by rfl⟩
